import Mathlib

/-!
Verification of the supersprite rendering core (`src/build/main.js`).

The JavaScript source is shallowly embedded over exact rational arithmetic:

* the `Matrix` class (9-element `values` array, `multiply`, `translate`,
  `rotate`, `scale`, `Matrix.projection`) becomes the structure `M3` and the
  functions `mMultiply`, `mTranslate`, `mRotate`, `mScale`, `projectionM`;
* the image-index selection of `drawSprite` / `drawSpriteSpeed` becomes
  `jsImageIndex`, `spriteImageLookup` and `spriteSpeedLookup`, with the
  JavaScript `%` operator on integers modelled by `Int.tmod` (truncated
  remainder) and on rationals by `jsFmod`;
* the frame counter of `Shader.beginRender` becomes `tickTimer` / `timerAfter`;
* the `scale` branch of `resizeCanvas` becomes `scaleResize`;
* `preparePrimitive` and the flat-colored draw functions become `Except`-valued
  functions whose `.error` results model the thrown `DrawError` (an `.error`
  result carries no `GLDrawCall`, so no GPU draw is issued on that path);
* the attribute/uniform resolution of the `Shader` constructor becomes
  `shaderConstruct` over an abstract GL introspection record.

`Math.cos` / `Math.sin` have no exact rational counterpart, so wherever the
source computes them (`Matrix.rotate`, `drawCircle`) the embedding takes the
already-computed cosine/sine values (or the angle step) as parameters; every
statement proved here holds for all values of those parameters.
-/

/-- Collection of four values for the RGBA components of a color, modelling
the `Color` class. `alpha` already has the constructor default applied
(`alpha === undefined ? 1 : alpha`). -/
structure Color where
  red : ℚ
  green : ℚ
  blue : ℚ
  alpha : ℚ
deriving DecidableEq, Repr

/-- Row-major 3x3 matrix of rational coefficients, modelling the 9-element
`values` array of the `Matrix` class (entry `vi` is `values[i]`). -/
@[ext] structure M3 where
  v0 : ℚ
  v1 : ℚ
  v2 : ℚ
  v3 : ℚ
  v4 : ℚ
  v5 : ℚ
  v6 : ℚ
  v7 : ℚ
  v8 : ℚ
deriving DecidableEq, Repr

/-- Transcription of `Matrix.multiply(mat)`: `a` plays the role of `this`
(entries `a00..a22`), `b` plays the role of `mat` (entries `b00..b22`), and
each field below is the corresponding element of the array assigned to
`this.values`, term for term. -/
def mMultiply (a b : M3) : M3 where
  v0 := b.v0 * a.v0 + b.v1 * a.v3 + b.v2 * a.v6
  v1 := b.v0 * a.v1 + b.v1 * a.v4 + b.v2 * a.v7
  v2 := b.v0 * a.v2 + b.v1 * a.v5 + b.v2 * a.v8
  v3 := b.v3 * a.v0 + b.v4 * a.v3 + b.v5 * a.v6
  v4 := b.v3 * a.v1 + b.v4 * a.v4 + b.v5 * a.v7
  v5 := b.v3 * a.v2 + b.v4 * a.v5 + b.v5 * a.v8
  v6 := b.v6 * a.v0 + b.v7 * a.v3 + b.v8 * a.v6
  v7 := b.v6 * a.v1 + b.v7 * a.v4 + b.v8 * a.v7
  v8 := b.v6 * a.v2 + b.v7 * a.v5 + b.v8 * a.v8

/-- The elementary matrix built inside `Matrix.translate(tx, ty)`. -/
def transM (tx ty : ℚ) : M3 := ⟨1, 0, 0, 0, 1, 0, tx, ty, 1⟩

/-- The elementary matrix built inside `Matrix.rotate(radians)`; `c` and `s`
stand for the values `Math.cos(radians)` and `Math.sin(radians)` computed
there (taken as parameters, since cosine and sine are not rational). -/
def rotM (c s : ℚ) : M3 := ⟨c, -s, 0, s, c, 0, 0, 0, 1⟩

/-- The elementary matrix built inside `Matrix.scale(sx, sy)`. -/
def scaleM (sx sy : ℚ) : M3 := ⟨sx, 0, 0, 0, sy, 0, 0, 0, 1⟩

/-- Transcription of `Matrix.translate`: `this.multiply(new Matrix([...]))`. -/
def mTranslate (tx ty : ℚ) (m : M3) : M3 := mMultiply m (transM tx ty)

/-- Transcription of `Matrix.rotate` (cosine/sine passed as parameters). -/
def mRotate (c s : ℚ) (m : M3) : M3 := mMultiply m (rotM c s)

/-- Transcription of `Matrix.scale`. -/
def mScale (sx sy : ℚ) (m : M3) : M3 := mMultiply m (scaleM sx sy)

/-- Transcription of `Matrix.projection(viewWidth, viewHeight)`. -/
def projectionM (w h : ℚ) : M3 := ⟨2 / w, 0, 0, 0, -2 / h, 0, -1, 1, 1⟩

/-- Transcription of `Matrix.identity`. -/
def idM : M3 := ⟨1, 0, 0, 0, 1, 0, 0, 0, 1⟩

/-- The standard mathematical row-major matrix product: entry `(i, j)` of
`matProd p q` is the dot product of row `i` of `p` with column `j` of `q`.
Written from the textbook definition, independently of `mMultiply`, to compare
the code against the specified composition order. -/
def matProd (p q : M3) : M3 where
  v0 := p.v0 * q.v0 + p.v1 * q.v3 + p.v2 * q.v6
  v1 := p.v0 * q.v1 + p.v1 * q.v4 + p.v2 * q.v7
  v2 := p.v0 * q.v2 + p.v1 * q.v5 + p.v2 * q.v8
  v3 := p.v3 * q.v0 + p.v4 * q.v3 + p.v5 * q.v6
  v4 := p.v3 * q.v1 + p.v4 * q.v4 + p.v5 * q.v7
  v5 := p.v3 * q.v2 + p.v4 * q.v5 + p.v5 * q.v8
  v6 := p.v6 * q.v0 + p.v7 * q.v3 + p.v8 * q.v6
  v7 := p.v6 * q.v1 + p.v7 * q.v4 + p.v8 * q.v7
  v8 := p.v6 * q.v2 + p.v7 * q.v5 + p.v8 * q.v8

/-- How the default vertex shader applies a position matrix to a logical
point `(x, y)`: `uniformMatrix3fv(..., false, values)` interprets the array
column-major, and the shader computes `(u_positionMatrix * vec3(x, y, 1)).xy`,
which is `(v0*x + v3*y + v6, v1*x + v4*y + v7)`. -/
def applyM (m : M3) (x y : ℚ) : ℚ × ℚ :=
  (m.v0 * x + m.v3 * y + m.v6, m.v1 * x + m.v4 * y + m.v7)

/-- Affine shape of a stored matrix: the entries at array indices 2, 5 and 8
(the last column of the row-major reading) are `(0, 0, 1)`. -/
def affineShape (m : M3) : Prop := m.v2 = 0 ∧ m.v5 = 0 ∧ m.v8 = 1

/-- Matrices reachable from the identity or a projection matrix by the exposed
operations `translate`, `rotate`, `scale` and `multiply` (the `multiply`
operand being itself built by those operations). -/
inductive Reach : M3 → Prop where
  | id : Reach idM
  | proj (w h : ℚ) : Reach (projectionM w h)
  | translate (tx ty : ℚ) {m : M3} : Reach m → Reach (mTranslate tx ty m)
  | rotate (c s : ℚ) {m : M3} : Reach m → Reach (mRotate c s m)
  | scale (sx sy : ℚ) {m : M3} : Reach m → Reach (mScale sx sy m)
  | mult {m b : M3} : Reach m → Reach b → Reach (mMultiply m b)

/-- Image-index computation at the top of `drawSprite` (and `drawSpriteCtx`):
`image = Math.floor(image); if (!sprite.images[image]) image %= k;` where `k`
is `sprite.images.length`. JavaScript `%` on integers is the truncated
remainder, i.e. `Int.tmod`. The array probe `sprite.images[image]` is truthy
exactly when `0 <= image < k`. -/
def jsImageIndex (k : ℕ) (image : ℚ) : ℤ :=
  if 0 ≤ ⌊image⌋ ∧ ⌊image⌋ < (k : ℤ) then ⌊image⌋ else Int.tmod ⌊image⌋ (k : ℤ)

/-- The subsequent access `sprite.images[image].t` in `drawSprite`: `some j`
when the computed index `j` denotes an existing image, `none` when the access
would fail (a `TypeError` on an undefined element). -/
def spriteImageLookup (k : ℕ) (image : ℚ) : Option ℤ :=
  if 0 ≤ jsImageIndex k image ∧ jsImageIndex k image < (k : ℤ) then
    some (jsImageIndex k image)
  else none

/-- Truncation toward zero, the rounding used by the JavaScript `%` operator
on non-integer operands. -/
def rTrunc (q : ℚ) : ℤ := if 0 ≤ q then ⌊q⌋ else ⌈q⌉

/-- The JavaScript `%` operator on rational operands: `x % k` is
`x - k * trunc(x / k)` (remainder with the sign of the dividend). -/
def jsFmod (x k : ℚ) : ℚ := x - k * (rTrunc (x / k) : ℚ)

/-- The image argument `(Shader.internalTimer * speed) % sprite.images.length`
that every branch of `drawSpriteSpeed` passes to `drawSprite`. -/
def spriteSpeedImageArg (k : ℕ) (speed : ℚ) (timer : ℕ) : ℚ :=
  jsFmod ((timer : ℚ) * speed) (k : ℚ)

/-- Image selected by `drawSpriteSpeed`: `drawSprite` applied to the
`jsFmod` image argument. -/
def spriteSpeedLookup (k : ℕ) (speed : ℚ) (timer : ℕ) : Option ℤ :=
  spriteImageLookup k (spriteSpeedImageArg k speed timer)

/-- Frame-timer update in `Shader.beginRender`: `this.internalTimer++;
if (this.internalTimer > 4096) this.internalTimer = 0;`. -/
def tickTimer (n : ℕ) : ℕ := if n + 1 > 4096 then 0 else n + 1

/-- Timer value observed right after the k-th `beginRender` call, starting
from the initial value 0 set by `Shader.init`. -/
def timerAfter : ℕ → ℕ
  | 0 => 0
  | k + 1 => tickTimer (timerAfter k)

/-- The `case 'scale'` branch of `resizeCanvas` with `maintainAspectRatio`
set: picks `window.innerWidth / viewWidth` when the window is taller than
wide, else `window.innerHeight / viewHeight`, clamps the factor to at least
1, floors it when `scalePerfectly` is set, and passes
`(viewWidth * scale, viewHeight * scale)` to `setProjection` as the new
display size (returned here as a pair). -/
def scaleResize (winW winH viewW viewH : ℚ) (scalePerfectly : Bool) : ℚ × ℚ :=
  let s1 := if winH > winW then winW / viewW else winH / viewH
  let s2 := max s1 1
  let s3 := if scalePerfectly then ((⌊s2⌋ : ℤ) : ℚ) else s2
  (viewW * s3, viewH * s3)

/-- Modelled from the spec claim under test: display size computed from the
smaller of the two available-space/logical-size ratios, clamped to a minimum
of 1 and floored when pixel-perfect. Written from the claim's words, for
comparison with `scaleResize`. -/
def specMinRatioResize (winW winH viewW viewH : ℚ) (scalePerfectly : Bool) : ℚ × ℚ :=
  let ratio := min (winW / viewW) (winH / viewH)
  let factor := if scalePerfectly then ((⌊max ratio 1⌋ : ℤ) : ℚ) else max ratio 1
  (viewW * factor, viewH * factor)

/-- The amended policy in words: the width ratio is used when the window is
strictly taller than wide, otherwise the height ratio; then clamp to a
minimum of 1 and floor when pixel-perfect. -/
def amendedScalePolicy (winW winH viewW viewH : ℚ) (scalePerfectly : Bool) : ℚ × ℚ :=
  let ratio := if winW < winH then winW / viewW else winH / viewH
  let factor := if scalePerfectly then ((⌊max ratio 1⌋ : ℤ) : ℚ) else max ratio 1
  (viewW * factor, viewH * factor)

/-- First color argument of a draw call: a `Color` instance, a plain number,
or `undefined`. -/
inductive ColorArg where
  | color (c : Color)
  | num (q : ℚ)
  | undef
deriving DecidableEq, Repr

/-- The blend data handed to `gl.uniform4f` by `preparePrimitive`: either the
four components of a `Color` instance, or the raw arguments
`(rcol, g, b, a === undefined ? 1 : a)` where `rcol` may be `undefined`
(`none`). -/
inductive BlendSpec where
  | fromColor (c : Color)
  | fromNumbers (r : Option ℚ) (g b a : ℚ)
deriving DecidableEq, Repr

/-- Transcription of `preparePrimitive(positions, rcol, g, b, a)`: uploads the
positions and sets the blend uniform, or throws `DrawError` when `rcol` is not
a `Color` and `g` or `b` is `undefined`. The `.error` value models the thrown
`DrawError`. -/
def preparePrimitive (positions : List ℚ) (rcol : ColorArg) (g b a : Option ℚ) :
    Except String (List ℚ × BlendSpec) :=
  match rcol, g, b with
  | .color c, _, _ => .ok (positions, .fromColor c)
  | rc, some gv, some bv =>
      .ok (positions,
        .fromNumbers (match rc with | .num q => some q | _ => none) gv bv (a.getD 1))
  | _, _, _ => .error "Illegal color arguments"

/-- GL primitive topology selected by the flat-colored draw functions. -/
inductive PrimMode where
  | lines
  | triangles
  | triangleFan
  | custom (m : ℕ)
deriving DecidableEq, Repr

/-- One `gl.drawArrays(mode, first, count)` call together with the vertex and
blend data previously uploaded for it. -/
structure GLDrawCall where
  mode : PrimMode
  first : ℕ
  count : ℕ
  positions : List ℚ
  blend : BlendSpec
deriving DecidableEq, Repr

/-- Transcription of `drawLine`: on success the single
`gl.drawArrays(gl.LINES, 0, 2)` call; a thrown `DrawError` propagates and no
draw call is issued. -/
def drawLine (x y x2 y2 : ℚ) (rcol : ColorArg) (g b a : Option ℚ) :
    Except String GLDrawCall :=
  match preparePrimitive [x, y, x2, y2] rcol g b a with
  | .error e => .error e
  | .ok p => .ok ⟨PrimMode.lines, 0, 2, p.1, p.2⟩

/-- Transcription of `drawRect`: two triangles covering the rectangle,
then `gl.drawArrays(gl.TRIANGLES, 0, 6)`. -/
def drawRect (x y x2 y2 : ℚ) (rcol : ColorArg) (g b a : Option ℚ) :
    Except String GLDrawCall :=
  match preparePrimitive [x, y2, x, y, x2, y, x2, y, x2, y2, x, y2] rcol g b a with
  | .error e => .error e
  | .ok p => .ok ⟨PrimMode.triangles, 0, 6, p.1, p.2⟩

/-- Vertex list built by `drawCircle`: the center followed by `segments + 1`
points on the circle. `cosF`, `sinF` and `step` stand for `Math.cos`,
`Math.sin` and `Math.PI * 2 / segments`, which have no exact rational values;
the accumulated angle after `i` loop iterations is `i * step`. -/
def circlePositions (cosF sinF : ℚ → ℚ) (step x y radius : ℚ) (segments : ℕ) : List ℚ :=
  [x, y] ++
    ((List.range (segments + 1)).map fun i =>
      [x + radius * cosF ((i : ℚ) * step), y + radius * sinF ((i : ℚ) * step)]).flatten

/-- Transcription of `drawCircle`: triangle fan of `segments + 2` vertices. -/
def drawCircle (cosF sinF : ℚ → ℚ) (step x y radius : ℚ) (segments : ℕ)
    (rcol : ColorArg) (g b a : Option ℚ) : Except String GLDrawCall :=
  match preparePrimitive (circlePositions cosF sinF step x y radius segments) rcol g b a with
  | .error e => .error e
  | .ok p => .ok ⟨PrimMode.triangleFan, 0, segments + 2, p.1, p.2⟩

/-- Transcription of `drawPrimitive(mode, positions, ...)`: vertex count is
`positions.length / 2`. -/
def drawPrimitive (mode : PrimMode) (positions : List ℚ) (rcol : ColorArg)
    (g b a : Option ℚ) : Except String GLDrawCall :=
  match preparePrimitive positions rcol g b a with
  | .error e => .error e
  | .ok p => .ok ⟨mode, 0, positions.length / 2, p.1, p.2⟩

/-- Condition of the `throw new DrawError(...)` branch of `preparePrimitive`:
the first color argument is not a `Color` instance and the green or blue
component is `undefined`. -/
def badColorArgs (rcol : ColorArg) (g b : Option ℚ) : Prop :=
  (∀ c, rcol ≠ ColorArg.color c) ∧ (g = none ∨ b = none)

/-- Results of the GL calls the `Shader` constructor makes, abstracting the
WebGL context: whether each created/compiled/linked object succeeded,
`getAttribLocation` (which yields `-1` for a missing attribute), and
`getUniformLocation` (which yields `null`, here `none`, for a missing
uniform). -/
structure GLIntrospect where
  vertexShaderOk : Bool
  fragmentShaderOk : Bool
  createProgramOk : Bool
  linkOk : Bool
  attribLoc : String → ℤ
  uniformLoc : String → Option ℕ
  createBufferOk : Bool

/-- The semantic-name table `opt.names` of a shader: texture entries are
optional (the source reads `opt.names.textureAttribute || ''`). -/
structure ShaderNames where
  positionAttribute : String
  positionUniform : String
  blendUniform : String
  textureAttribute : Option String
  textureUniform : Option String

/-- The resolved slots a successfully constructed `Shader` instance holds. -/
structure ShaderRec where
  positionAttribute : ℤ
  positionMatrix : ℕ
  blendUniform : ℕ
  textureAttribute : Option ℤ
  textureMatrix : Option ℕ
deriving DecidableEq, Repr

/-- Transcription of the `Shader` constructor: compile both stages, create and
link the program, resolve the required attribute/uniform slots (texture slots
only when `opt.useTexture`), create the buffer; each failed step throws a
`ShaderError`, modelled as `.error`. An `.error` result carries no
`ShaderRec`, so no partially-usable shader object exists on that path. -/
def shaderConstruct (gl : GLIntrospect) (names : ShaderNames) (useTexture : Bool) :
    Except String ShaderRec :=
  if gl.vertexShaderOk = false then .error "Failed to compile vertex shader" else
  if gl.fragmentShaderOk = false then .error "Failed to compile fragment shader" else
  if gl.createProgramOk = false then .error "Failed to create program" else
  if gl.linkOk = false then .error "Failed to link shader program" else
  if gl.attribLoc names.positionAttribute = -1 then .error "Position attribute not found" else
  match gl.uniformLoc names.positionUniform with
  | none => .error "Position matrix uniform not found"
  | some pm =>
    match gl.uniformLoc names.blendUniform with
    | none => .error "Blend uniform not found"
    | some bu =>
      if useTexture = true then
        if gl.attribLoc (names.textureAttribute.getD "") = -1 then
          .error "Texture attribute not found"
        else
          match gl.uniformLoc (names.textureUniform.getD "") with
          | none => .error "Texture matrix uniform not found"
          | some tm =>
            if gl.createBufferOk = false then .error "Failed to create buffer" else
            .ok ⟨gl.attribLoc names.positionAttribute, pm, bu,
              some (gl.attribLoc (names.textureAttribute.getD "")), some tm⟩
      else
        if gl.createBufferOk = false then .error "Failed to create buffer" else
        .ok ⟨gl.attribLoc names.positionAttribute, pm, bu, none, none⟩

/-- A required attribute or uniform name is absent from the linked program:
the position attribute, position-matrix uniform or blend uniform, or, for a
texture-using shader, the texture attribute or texture-matrix uniform. -/
def requiredSlotMissing (gl : GLIntrospect) (names : ShaderNames) (useTexture : Bool) : Prop :=
  gl.attribLoc names.positionAttribute = -1
  ∨ gl.uniformLoc names.positionUniform = none
  ∨ gl.uniformLoc names.blendUniform = none
  ∨ (useTexture = true ∧ (gl.attribLoc (names.textureAttribute.getD "") = -1
      ∨ gl.uniformLoc (names.textureUniform.getD "") = none))

/-- A GL introspection in which every object creation succeeds but no uniform
name resolves, for exercising the missing-slot path. -/
def glMissingUniform : GLIntrospect :=
  ⟨true, true, true, true, fun _ => 0, fun _ => none, true⟩

/-- The semantic-name table of the default image shader in `Shader.init`. -/
def defaultImageNames : ShaderNames :=
  ⟨"a_position", "u_positionMatrix", "u_blend", some "a_texcoord", some "u_texcoordMatrix"⟩

/-- The identity matrix is affine-shaped. -/
theorem affineShape_idM : affineShape idM := by
  refine ⟨rfl, rfl, rfl⟩

theorem affineShape_projectionM (w h : ℚ) : affineShape (projectionM w h) := by
  refine ⟨rfl, rfl, rfl⟩

theorem affineShape_transM (tx ty : ℚ) : affineShape (transM tx ty) := by
  refine ⟨rfl, rfl, rfl⟩

theorem affineShape_rotM (c s : ℚ) : affineShape (rotM c s) := by
  refine ⟨rfl, rfl, rfl⟩

theorem affineShape_scaleM (sx sy : ℚ) : affineShape (scaleM sx sy) := by
  refine ⟨rfl, rfl, rfl⟩

theorem affineShape_mMultiply {a b : M3} (ha : affineShape a) (hb : affineShape b) :
    affineShape (mMultiply a b) := by
  obtain ⟨ha2, ha5, ha8⟩ := ha
  obtain ⟨hb2, hb5, hb8⟩ := hb
  refine ⟨?_, ?_, ?_⟩ <;> simp [mMultiply, ha2, ha5, ha8, hb2, hb5, hb8]

/-- C1: `Matrix.multiply(mat)` replaces the receiver's row-major coefficient
array with the matrix product `mat * this` (post-multiplication by the
incoming transform), and `translate`, `rotate` and `scale` each replace
`this` by `E * this` for the corresponding elementary matrix `E`, so chained
calls compose in the order they are written. -/
theorem multiply_post_multiplies :
    (∀ a b : M3, mMultiply a b = matProd b a)
    ∧ (∀ (m : M3) (tx ty : ℚ), mTranslate tx ty m = matProd (transM tx ty) m)
    ∧ (∀ (m : M3) (c s : ℚ), mRotate c s m = matProd (rotM c s) m)
    ∧ (∀ (m : M3) (sx sy : ℚ), mScale sx sy m = matProd (scaleM sx sy) m)
    ∧ (∀ (m : M3) (tx ty c s : ℚ),
        mRotate c s (mTranslate tx ty m) = matProd (rotM c s) (matProd (transM tx ty) m)) :=
  ⟨fun _ _ => rfl, fun _ _ _ => rfl, fun _ _ _ => rfl, fun _ _ _ => rfl,
    fun _ _ _ _ _ => rfl⟩

/-- C4: for positive `w` and `h`, the matrix `Matrix.projection(w, h)`,
applied the way the vertex shader applies the position matrix, maps the
logical point `(0, 0)` to the clip-space corner `(-1, 1)` and `(w, h)` to the
opposite corner `(1, -1)`; the vertical-axis sign is a fixed top-left-origin
convention (increasing logical `y` strictly decreases clip-space `y`). -/
theorem projection_corners (w h : ℚ) (hw : 0 < w) (hh : 0 < h) :
    applyM (projectionM w h) 0 0 = (-1, 1)
    ∧ applyM (projectionM w h) w h = (1, -1)
    ∧ ∀ x y1 y2 : ℚ, y1 < y2 →
        (applyM (projectionM w h) x y2).2 < (applyM (projectionM w h) x y1).2 := by
  refine ⟨?_, ?_, ?_⟩
  · simp [applyM, projectionM]
  · simp only [applyM, projectionM, Prod.mk.injEq]
    constructor
    · field_simp
      norm_num
    · field_simp
      ring
  · intro x y1 y2 hy
    simp only [applyM, projectionM]
    have hneg : (-2 : ℚ) / h < 0 := div_neg_of_neg_of_pos (by norm_num) hh
    have := mul_lt_mul_of_neg_left hy hneg
    simpa using by linarith

/-- Witness for C4 at the demo's logical size 400x240. -/
theorem projection_corners_witness :
    applyM (projectionM 400 240) 0 0 = (-1, 1)
    ∧ applyM (projectionM 400 240) 400 240 = (1, -1) :=
  ⟨(projection_corners 400 240 (by norm_num) (by norm_num)).1,
    (projection_corners 400 240 (by norm_num) (by norm_num)).2.1⟩

/-- Translated and elementary matrices all carry the affine shape; the
`translate` operand matrix has its offsets in the bottom row. -/
theorem transM_bottom_row (tx ty : ℚ) :
    (transM tx ty).v6 = tx ∧ (transM tx ty).v7 = ty ∧ (transM tx ty).v8 = 1 :=
  ⟨rfl, rfl, rfl⟩

/-- C7: matrices whose entries at indices 2, 5 and 8 are `(0, 0, 1)` keep
that shape under `multiply` (by another matrix of the same shape),
`translate`, `rotate` and `scale`; `Matrix.projection(w, h)` has the same
shape; and translating the identity stores the offsets at indices 6 and 7. -/
theorem affine_preserved (m mB : M3) (tx ty c s sx sy w h : ℚ)
    (hm : affineShape m) (hB : affineShape mB) :
    affineShape (mMultiply m mB)
    ∧ affineShape (mTranslate tx ty m)
    ∧ affineShape (mRotate c s m)
    ∧ affineShape (mScale sx sy m)
    ∧ affineShape (projectionM w h)
    ∧ (mTranslate tx ty idM).v6 = tx ∧ (mTranslate tx ty idM).v7 = ty := by
  refine ⟨affineShape_mMultiply hm hB,
    affineShape_mMultiply hm (affineShape_transM tx ty),
    affineShape_mMultiply hm (affineShape_rotM c s),
    affineShape_mMultiply hm (affineShape_scaleM sx sy),
    affineShape_projectionM w h, ?_, ?_⟩ <;>
  simp [mTranslate, mMultiply, transM, idM]

/-- Witness for C7 at concrete matrices and parameters. -/
theorem affine_preserved_witness :
    affineShape (mMultiply idM idM)
    ∧ affineShape (mTranslate 3 4 idM)
    ∧ affineShape (mRotate 0 1 idM)
    ∧ affineShape (mScale 2 2 idM)
    ∧ affineShape (projectionM 400 240)
    ∧ (mTranslate 3 4 idM).v6 = 3 ∧ (mTranslate 3 4 idM).v7 = 4 :=
  affine_preserved idM idM 3 4 0 1 2 2 400 240 affineShape_idM affineShape_idM

/-- C6 counterexample: translating the identity by `(1, 2)` is reachable by
the exposed operations, yet its bottom row (array indices 6, 7, 8) is
`(1, 2, 1)`, not `(0, 0, 1)` — the code stores the translation offsets in
the bottom row. -/
theorem bottomRow_counterexample :
    Reach (mTranslate 1 2 idM)
    ∧ ¬ ((mTranslate 1 2 idM).v6 = 0 ∧ (mTranslate 1 2 idM).v7 = 0
        ∧ (mTranslate 1 2 idM).v8 = 1) := by
  refine ⟨Reach.translate 1 2 Reach.id, ?_⟩
  intro hcontra
  have h6 := hcontra.1
  norm_num [mTranslate, mMultiply, transM, idM] at h6

/-- C6 amended: for every matrix reachable from the identity or a projection
matrix by translate/rotate/scale/multiply, the entries at array indices
2, 5 and 8 (the last column of the row-major reading) are `(0, 0, 1)`;
the bottom row instead holds the translation components. -/
theorem bottomRow_amended (m : M3) (h : Reach m) :
    m.v2 = 0 ∧ m.v5 = 0 ∧ m.v8 = 1 := by
  induction h with
  | id => exact affineShape_idM
  | proj w h => exact affineShape_projectionM w h
  | translate tx ty _ ih => exact affineShape_mMultiply ih (affineShape_transM tx ty)
  | rotate c s _ ih => exact affineShape_mMultiply ih (affineShape_rotM c s)
  | scale sx sy _ ih => exact affineShape_mMultiply ih (affineShape_scaleM sx sy)
  | mult _ _ ih1 ih2 => exact affineShape_mMultiply ih1 ih2

/-- Witness for the amended C6 at the reachable matrix `idM`. -/
theorem bottomRow_amended_witness : idM.v2 = 0 ∧ idM.v5 = 0 ∧ idM.v8 = 1 :=
  bottomRow_amended idM Reach.id

/-- Every tick keeps the timer at or below 4096. -/
theorem tickTimer_le (n : ℕ) : tickTimer n ≤ 4096 := by
  unfold tickTimer; split <;> omega

/-- C5: starting from 0, each `beginRender` increments the frame timer and
resets it to 0 once it exceeds 4096, so after every call the observed value
lies in `[0, 4096]`, 4097 is never observed, and the successor of an
observed 4096 is 0. -/
theorem frameTimer_wrap :
    (∀ n : ℕ, n + 1 ≤ 4096 → tickTimer n = n + 1)
    ∧ (∀ n : ℕ, 4096 < n + 1 → tickTimer n = 0)
    ∧ tickTimer 4096 = 0
    ∧ ∀ k : ℕ, timerAfter k ≤ 4096 ∧ timerAfter k ≠ 4097 := by
  have hall : ∀ k : ℕ, timerAfter k ≤ 4096 := by
    intro k
    induction k with
    | zero => simp [timerAfter]
    | succ n _ => exact tickTimer_le (timerAfter n)
  refine ⟨?_, ?_, ?_, ?_⟩
  · intro n hle; unfold tickTimer; split <;> omega
  · intro n hgt; unfold tickTimer; split <;> omega
  · decide
  · intro k
    refine ⟨hall k, ?_⟩
    have := hall k
    omega

/-- Witness for C5 at the wrap boundary. -/
theorem frameTimer_wrap_witness :
    tickTimer 4095 = 4096 ∧ tickTimer 4096 = 0 ∧ timerAfter 4097 ≤ 4096 :=
  ⟨frameTimer_wrap.1 4095 (by norm_num), frameTimer_wrap.2.2.1,
    (frameTimer_wrap.2.2.2 4097).1⟩

/-- For a nonnegative image argument the index computed by `drawSprite` is
the floor reduced by Euclidean mod. -/
theorem jsImageIndex_nonneg (k : ℕ) (image : ℚ) (h0 : 0 ≤ image) :
    jsImageIndex k image = ⌊image⌋ % (k : ℤ) := by
  have hi0 : (0 : ℤ) ≤ ⌊image⌋ := Int.floor_nonneg.mpr h0
  unfold jsImageIndex
  by_cases hlt : ⌊image⌋ < (k : ℤ)
  · rw [if_pos ⟨hi0, hlt⟩, Int.emod_eq_of_lt hi0 hlt]
  · rw [if_neg (fun hc => hlt hc.2), Int.tmod_eq_emod hi0 (Int.natCast_nonneg k)]

/-- An in-range integer image argument is left unchanged. -/
theorem jsImageIndex_intCast (k : ℕ) (j : ℤ) (h0 : 0 ≤ j) (hj : j < (k : ℤ)) :
    jsImageIndex k ((j : ℚ)) = j := by
  unfold jsImageIndex
  rw [Int.floor_intCast, if_pos ⟨h0, hj⟩]

/-- Looking up an in-range integer index succeeds. -/
theorem spriteImageLookup_intCast (k : ℕ) (j : ℤ) (h0 : 0 ≤ j) (hj : j < (k : ℤ)) :
    spriteImageLookup k ((j : ℚ)) = some j := by
  unfold spriteImageLookup
  rw [jsImageIndex_intCast k j h0 hj, if_pos ⟨h0, hj⟩]

/-- The truncated remainder of a negative non-multiple is negative. -/
theorem tmod_neg_of_neg_not_dvd {i k : ℤ} (hi : i < 0) (hk : 0 < k)
    (hnd : ¬ k ∣ i) : Int.tmod i k < 0 := by
  obtain ⟨m, rfl⟩ := Int.eq_negSucc_of_lt_zero hi
  obtain ⟨n, rfl⟩ := Int.eq_succ_of_zero_lt hk
  have hne : (m + 1) % (n + 1) ≠ 0 := by
    intro h0
    apply hnd
    have hdvd : (n + 1) ∣ (m + 1) := Nat.dvd_of_mod_eq_zero h0
    have h2 : ((n + 1 : ℕ) : ℤ) ∣ ((m + 1 : ℕ) : ℤ) := Int.natCast_dvd_natCast.mpr hdvd
    have h3 : Int.negSucc m = -((m + 1 : ℕ) : ℤ) := rfl
    rw [h3]
    exact Dvd.dvd.neg_right h2
  have hpos : 0 < (m + 1) % (n + 1) := Nat.pos_of_ne_zero hne
  have hdef : Int.tmod (Int.negSucc m) ((n + 1 : ℕ) : ℤ) = -(((m + 1) % (n + 1) : ℕ) : ℤ) := rfl
  rw [hdef]
  omega

/-- C2 counterexample: for a 4-image sprite, a requested image index of `-1`
does not wrap to image 3 — the computed index is `-1` (the JavaScript
truncated remainder) and the image access fails. -/
theorem spriteIndex_wrap_counterexample :
    spriteImageLookup 4 (-1) = none ∧ jsImageIndex 4 (-1) = -1
    ∧ spriteImageLookup 4 (-1) ≠ some 3 := by
  have h1 : ⌊(-1 : ℚ)⌋ = -1 := by norm_num
  have hneg : ¬ ((0 : ℤ) ≤ -1 ∧ (-1 : ℤ) < ((4 : ℕ) : ℤ)) := by norm_num
  have h2 : jsImageIndex 4 (-1) = -1 := by
    unfold jsImageIndex
    rw [h1, if_neg hneg]
    decide
  have h3 : spriteImageLookup 4 (-1) = none := by
    unfold spriteImageLookup
    rw [h2, if_neg (by norm_num)]
  exact ⟨h3, h2, by rw [h3]; exact fun hc => nomatch hc⟩

/-- C2 amended: for a sprite with `k ≥ 1` images, a nonnegative image
argument selects image `⌊image⌋ mod k` (so `k` wraps to 0 and `k + 1` to 1),
but a negative argument yields the truncated remainder `⌊image⌋ tmod k`,
which is negative whenever `⌊image⌋` is not a multiple of `k`, and then no
valid image exists: the draw fails instead of wrapping to `k - 1`. -/
theorem spriteIndex_wrap_amended (k : ℕ) (hk : 1 ≤ k) (image : ℚ) :
    (0 ≤ image → spriteImageLookup k image = some (⌊image⌋ % (k : ℤ)))
    ∧ (image < 0 → ¬ ((k : ℤ) ∣ ⌊image⌋) → spriteImageLookup k image = none) := by
  have hkz : ((k : ℤ)) ≠ 0 := by exact_mod_cast Nat.one_le_iff_ne_zero.mp hk
  have hkpos : (0 : ℤ) < (k : ℤ) := by exact_mod_cast hk
  constructor
  · intro h0
    have hm0 : 0 ≤ ⌊image⌋ % (k : ℤ) := Int.emod_nonneg _ hkz
    have hmk : ⌊image⌋ % (k : ℤ) < (k : ℤ) := Int.emod_lt_of_pos _ hkpos
    unfold spriteImageLookup
    rw [jsImageIndex_nonneg k image h0, if_pos ⟨hm0, hmk⟩]
  · intro hneg hnd
    have hi : ⌊image⌋ < 0 := by
      have : image < ((0 : ℤ) : ℚ) := by exact_mod_cast hneg
      exact Int.floor_lt.mpr this
    have hidx : jsImageIndex k image = Int.tmod ⌊image⌋ (k : ℤ) := by
      unfold jsImageIndex
      rw [if_neg (fun hc => absurd hc.1 (by omega))]
    have htm : Int.tmod ⌊image⌋ (k : ℤ) < 0 := tmod_neg_of_neg_not_dvd hi hkpos hnd
    unfold spriteImageLookup
    rw [hidx, if_neg (fun hc => absurd hc.1 (by omega))]

/-- Witness for the amended C2: image 5 of a 4-image sprite wraps to 1,
image -3 fails. -/
theorem spriteIndex_wrap_amended_witness :
    spriteImageLookup 4 5 = some 1 ∧ spriteImageLookup 4 (-3) = none := by
  constructor
  · have h := (spriteIndex_wrap_amended 4 (by norm_num) 5).1 (by norm_num)
    rw [h]
    norm_num
  · refine (spriteIndex_wrap_amended 4 (by norm_num) (-3)).2 (by norm_num) ?_
    rw [show ⌊(-3 : ℚ)⌋ = -3 by norm_num]
    decide

/-- Central lemma for C3: for a nonnegative speed the `jsFmod` pre-reduction
performed by `drawSpriteSpeed` composes with the floor-and-wrap of
`drawSprite` into exactly `⌊timer * speed⌋ mod k`. -/
theorem spriteSpeedLookup_eq (k : ℕ) (hk : 1 ≤ k) (speed : ℚ) (hs : 0 ≤ speed)
    (t : ℕ) : spriteSpeedLookup k speed t = some (⌊(t : ℚ) * speed⌋ % (k : ℤ)) := by
  have hx0 : 0 ≤ (t : ℚ) * speed := mul_nonneg (Nat.cast_nonneg t) hs
  have hkQ : (0 : ℚ) < (k : ℚ) := by exact_mod_cast hk
  have htr : rTrunc ((t : ℚ) * speed / (k : ℚ)) = ⌊(t : ℚ) * speed / (k : ℚ)⌋ := by
    unfold rTrunc
    rw [if_pos (div_nonneg hx0 hkQ.le)]
  have hfr : ⌊(t : ℚ) * speed - (k : ℚ) * ((⌊(t : ℚ) * speed / (k : ℚ)⌋ : ℤ) : ℚ)⌋
      = ⌊(t : ℚ) * speed⌋ - (k : ℤ) * ⌊(t : ℚ) * speed / (k : ℚ)⌋ := by
    have hcast : (k : ℚ) * ((⌊(t : ℚ) * speed / (k : ℚ)⌋ : ℤ) : ℚ)
        = (((k : ℤ) * ⌊(t : ℚ) * speed / (k : ℚ)⌋ : ℤ) : ℚ) := by
      push_cast
      ring
    rw [hcast, Int.floor_sub_int]
  have hr0 : 0 ≤ (t : ℚ) * speed - (k : ℚ) * ((⌊(t : ℚ) * speed / (k : ℚ)⌋ : ℤ) : ℚ) := by
    have h1 := Int.sub_floor_div_mul_nonneg ((t : ℚ) * speed) hkQ
    calc (0 : ℚ) ≤ (t : ℚ) * speed - ⌊(t : ℚ) * speed / (k : ℚ)⌋ * (k : ℚ) := h1
    _ = (t : ℚ) * speed - (k : ℚ) * ((⌊(t : ℚ) * speed / (k : ℚ)⌋ : ℤ) : ℚ) := by ring
  have hrk : (t : ℚ) * speed - (k : ℚ) * ((⌊(t : ℚ) * speed / (k : ℚ)⌋ : ℤ) : ℚ) < (k : ℚ) := by
    have h2 := Int.sub_floor_div_mul_lt ((t : ℚ) * speed) hkQ
    calc (t : ℚ) * speed - (k : ℚ) * ((⌊(t : ℚ) * speed / (k : ℚ)⌋ : ℤ) : ℚ)
        = (t : ℚ) * speed - ⌊(t : ℚ) * speed / (k : ℚ)⌋ * (k : ℚ) := by ring
    _ < (k : ℚ) := h2
  have hj0 : 0 ≤ ⌊(t : ℚ) * speed⌋ - (k : ℤ) * ⌊(t : ℚ) * speed / (k : ℚ)⌋ := by
    rw [← hfr]
    exact Int.floor_nonneg.mpr hr0
  have hjk : ⌊(t : ℚ) * speed⌋ - (k : ℤ) * ⌊(t : ℚ) * speed / (k : ℚ)⌋ < (k : ℤ) := by
    rw [← hfr]
    exact Int.floor_lt.mpr (by exact_mod_cast hrk)
  have hmod : ⌊(t : ℚ) * speed⌋ - (k : ℤ) * ⌊(t : ℚ) * speed / (k : ℚ)⌋
      = ⌊(t : ℚ) * speed⌋ % (k : ℤ) := by
    have habs : (⌊(t : ℚ) * speed⌋ + (k : ℤ) * (-⌊(t : ℚ) * speed / (k : ℚ)⌋)) % (k : ℤ)
        = ⌊(t : ℚ) * speed⌋ % (k : ℤ) := Int.add_mul_emod_self_left ..
    calc ⌊(t : ℚ) * speed⌋ - (k : ℤ) * ⌊(t : ℚ) * speed / (k : ℚ)⌋
        = (⌊(t : ℚ) * speed⌋ - (k : ℤ) * ⌊(t : ℚ) * speed / (k : ℚ)⌋) % (k : ℤ) :=
          (Int.emod_eq_of_lt hj0 hjk).symm
    _ = (⌊(t : ℚ) * speed⌋ + (k : ℤ) * (-⌊(t : ℚ) * speed / (k : ℚ)⌋)) % (k : ℤ) := by
          ring_nf
    _ = ⌊(t : ℚ) * speed⌋ % (k : ℤ) := habs
  have harg : spriteSpeedImageArg k speed t
      = (t : ℚ) * speed - (k : ℚ) * ((⌊(t : ℚ) * speed / (k : ℚ)⌋ : ℤ) : ℚ) := by
    unfold spriteSpeedImageArg jsFmod
    rw [htr]
  have hidx : jsImageIndex k (spriteSpeedImageArg k speed t)
      = ⌊(t : ℚ) * speed⌋ - (k : ℤ) * ⌊(t : ℚ) * speed / (k : ℚ)⌋ := by
    unfold jsImageIndex
    rw [harg, hfr, if_pos ⟨hj0, hjk⟩]
  unfold spriteSpeedLookup spriteImageLookup
  rw [hidx, if_pos ⟨hj0, hjk⟩, hmod]

/-- C3: for `k ≥ 1` images, nonnegative speed and any timer value `t`,
`drawSpriteSpeed` selects image `⌊t * speed⌋ mod k` — the same image
`drawSprite` selects when invoked with that already-reduced index — and for
`speed = 1/5` and `k = 4` the selected indices over timer values 0..5 are
`0, 0, 0, 0, 0, 1` (so the sequence `0,0,0,0,1` appears over the first five
elapsed frames, timer values 1..5). -/
theorem spriteSpeed_index (k : ℕ) (hk : 1 ≤ k) (speed : ℚ) (hs : 0 ≤ speed) (t : ℕ) :
    spriteSpeedLookup k speed t = some (⌊(t : ℚ) * speed⌋ % (k : ℤ))
    ∧ spriteSpeedLookup k speed t
      = spriteImageLookup k (((⌊(t : ℚ) * speed⌋ % (k : ℤ) : ℤ) : ℚ))
    ∧ spriteSpeedLookup 4 (1/5) 0 = some 0
    ∧ spriteSpeedLookup 4 (1/5) 1 = some 0
    ∧ spriteSpeedLookup 4 (1/5) 2 = some 0
    ∧ spriteSpeedLookup 4 (1/5) 3 = some 0
    ∧ spriteSpeedLookup 4 (1/5) 4 = some 0
    ∧ spriteSpeedLookup 4 (1/5) 5 = some 1 := by
  have hkz : ((k : ℤ)) ≠ 0 := by exact_mod_cast Nat.one_le_iff_ne_zero.mp hk
  have hkpos : (0 : ℤ) < (k : ℤ) := by exact_mod_cast hk
  have main := spriteSpeedLookup_eq k hk speed hs t
  refine ⟨main, ?_, ?_, ?_, ?_, ?_, ?_, ?_⟩
  · rw [main,
      spriteImageLookup_intCast k _ (Int.emod_nonneg _ hkz) (Int.emod_lt_of_pos _ hkpos)]
  · rw [spriteSpeedLookup_eq 4 (by norm_num) (1/5) (by norm_num) 0]
    norm_num
  · have hf : ⌊((1 : ℕ) : ℚ) * (1/5)⌋ = 0 := by
      rw [Int.floor_eq_iff]
      constructor <;> norm_num
    rw [spriteSpeedLookup_eq 4 (by norm_num) (1/5) (by norm_num) 1, hf]
    norm_num
  · have hf : ⌊((2 : ℕ) : ℚ) * (1/5)⌋ = 0 := by
      rw [Int.floor_eq_iff]
      constructor <;> norm_num
    rw [spriteSpeedLookup_eq 4 (by norm_num) (1/5) (by norm_num) 2, hf]
    norm_num
  · have hf : ⌊((3 : ℕ) : ℚ) * (1/5)⌋ = 0 := by
      rw [Int.floor_eq_iff]
      constructor <;> norm_num
    rw [spriteSpeedLookup_eq 4 (by norm_num) (1/5) (by norm_num) 3, hf]
    norm_num
  · have hf : ⌊((4 : ℕ) : ℚ) * (1/5)⌋ = 0 := by
      rw [Int.floor_eq_iff]
      constructor <;> norm_num
    rw [spriteSpeedLookup_eq 4 (by norm_num) (1/5) (by norm_num) 4, hf]
    norm_num
  · have hf : ⌊((5 : ℕ) : ℚ) * (1/5)⌋ = 1 := by
      rw [Int.floor_eq_iff]
      constructor <;> norm_num
    rw [spriteSpeedLookup_eq 4 (by norm_num) (1/5) (by norm_num) 5, hf]
    norm_num

/-- Witness for C3: after five elapsed frames at speed 1/5 the 4-image sprite
shows image 1. -/
theorem spriteSpeed_index_witness : spriteSpeedLookup 4 (1/5) 5 = some 1 :=
  (spriteSpeed_index 4 (by norm_num) (1/5) (by norm_num) 5).2.2.2.2.2.2.2

/-- C8 counterexample: logical size 100x400 inside a 500x600 window (window
taller than wide, logical much taller than wide). The code picks the
window-width ratio 500/100 = 5 because the window is taller than wide, and
produces display size 500x2000; the claimed smaller-of-the-two-ratios formula
picks min(5, 3/2) = 3/2, floored to 1, producing 100x400. -/
theorem scalePolicy_counterexample :
    scaleResize 500 600 100 400 true = (500, 2000)
    ∧ specMinRatioResize 500 600 100 400 true = (100, 400)
    ∧ scaleResize 500 600 100 400 true ≠ specMinRatioResize 500 600 100 400 true := by
  have h32 : ⌊(3/2 : ℚ)⌋ = 1 := by
    rw [Int.floor_eq_iff]
    constructor <;> norm_num
  have e1 : scaleResize 500 600 100 400 true = (500, 2000) := by
    norm_num [scaleResize, max_def]
  have e2 : specMinRatioResize 500 600 100 400 true = (100, 400) := by
    norm_num [specMinRatioResize, min_def, max_def, h32]
  refine ⟨e1, e2, ?_⟩
  rw [e1, e2]
  norm_num [Prod.ext_iff]

/-- C8 amended: under the `scale` strategy with aspect lock, the display size
is the logical size times a factor taken from the window-width/logical-width
ratio when the window is strictly taller than wide and from the
window-height/logical-height ratio otherwise, clamped to a minimum of 1 and
floored when pixel-perfect; in particular logical 400x240 inside an 850x500
window yields factor 2 and display 800x480, not the fractional 2.125x. -/
theorem scalePolicy_amended :
    (∀ (winW winH viewW viewH : ℚ) (sp : Bool),
      scaleResize winW winH viewW viewH sp = amendedScalePolicy winW winH viewW viewH sp)
    ∧ scaleResize 850 500 400 240 true = (800, 480)
    ∧ scaleResize 850 500 400 240 true ≠ (850, 510) := by
  have e1 : scaleResize 850 500 400 240 true = (800, 480) := by
    have h2512 : ⌊(25/12 : ℚ)⌋ = 2 := by
      rw [Int.floor_eq_iff]
      constructor <;> norm_num
    norm_num [scaleResize, max_def, h2512]
  refine ⟨?_, e1, ?_⟩
  · intro winW winH viewW viewH sp
    rfl
  · rw [e1]
    norm_num [Prod.ext_iff]

/-- The `throw` branch of `preparePrimitive` is taken exactly for the
unparseable color-argument combinations. -/
theorem preparePrimitive_error_iff (positions : List ℚ) (rcol : ColorArg)
    (g b a : Option ℚ) :
    (∃ e, preparePrimitive positions rcol g b a = .error e) ↔ badColorArgs rcol g b := by
  constructor
  · rintro ⟨e, he⟩
    cases rcol with
    | color c => simp [preparePrimitive] at he
    | num q =>
      cases g with
      | none => exact ⟨fun c h => (nomatch h), Or.inl rfl⟩
      | some gv =>
        cases b with
        | none => exact ⟨fun c h => (nomatch h), Or.inr rfl⟩
        | some bv => simp [preparePrimitive] at he
    | undef =>
      cases g with
      | none => exact ⟨fun c h => (nomatch h), Or.inl rfl⟩
      | some gv =>
        cases b with
        | none => exact ⟨fun c h => (nomatch h), Or.inr rfl⟩
        | some bv => simp [preparePrimitive] at he
  · rintro ⟨h1, h2⟩
    cases rcol with
    | color c => exact absurd rfl (h1 c)
    | num q =>
      cases h2 with
      | inl hg => subst hg; cases b <;> exact ⟨_, rfl⟩
      | inr hb => subst hb; cases g <;> exact ⟨_, rfl⟩
    | undef =>
      cases h2 with
      | inl hg => subst hg; cases b <;> exact ⟨_, rfl⟩
      | inr hb => subst hb; cases g <;> exact ⟨_, rfl⟩

/-- A line draw fails exactly when `preparePrimitive` throws. -/
theorem drawLine_error_iff (x y x2 y2 : ℚ) (rcol : ColorArg) (g b a : Option ℚ) :
    (∃ e, drawLine x y x2 y2 rcol g b a = .error e) ↔ badColorArgs rcol g b := by
  rw [← preparePrimitive_error_iff [x, y, x2, y2] rcol g b a]
  cases h : preparePrimitive [x, y, x2, y2] rcol g b a <;> simp [drawLine, h]

/-- A rect draw fails exactly when `preparePrimitive` throws. -/
theorem drawRect_error_iff (x y x2 y2 : ℚ) (rcol : ColorArg) (g b a : Option ℚ) :
    (∃ e, drawRect x y x2 y2 rcol g b a = .error e) ↔ badColorArgs rcol g b := by
  rw [← preparePrimitive_error_iff [x, y2, x, y, x2, y, x2, y, x2, y2, x, y2] rcol g b a]
  cases h : preparePrimitive [x, y2, x, y, x2, y, x2, y, x2, y2, x, y2] rcol g b a <;>
    simp [drawRect, h]

/-- A circle draw fails exactly when `preparePrimitive` throws. -/
theorem drawCircle_error_iff (cosF sinF : ℚ → ℚ) (step x y radius : ℚ) (segments : ℕ)
    (rcol : ColorArg) (g b a : Option ℚ) :
    (∃ e, drawCircle cosF sinF step x y radius segments rcol g b a = .error e)
      ↔ badColorArgs rcol g b := by
  rw [← preparePrimitive_error_iff (circlePositions cosF sinF step x y radius segments)
    rcol g b a]
  cases h : preparePrimitive (circlePositions cosF sinF step x y radius segments)
    rcol g b a <;> simp [drawCircle, h]

/-- An arbitrary-primitive draw fails exactly when `preparePrimitive` throws. -/
theorem drawPrimitive_error_iff (mode : PrimMode) (positions : List ℚ)
    (rcol : ColorArg) (g b a : Option ℚ) :
    (∃ e, drawPrimitive mode positions rcol g b a = .error e) ↔ badColorArgs rcol g b := by
  rw [← preparePrimitive_error_iff positions rcol g b a]
  cases h : preparePrimitive positions rcol g b a <;> simp [drawPrimitive, h]

/-- C9: each flat-colored draw (`line`, `rect`, `circle`, `primitive`)
signals a `DrawError` exactly when the first color argument is not a `Color`
instance and the green or blue component is `undefined`; in that case the
result is an `.error` carrying no `GLDrawCall`, so no GPU draw call is issued
for that draw. -/
theorem primitive_color_error (x y x2 y2 step radius : ℚ) (segments : ℕ)
    (mode : PrimMode) (positions : List ℚ) (cosF sinF : ℚ → ℚ)
    (rcol : ColorArg) (g b a : Option ℚ) :
    ((∃ e, drawLine x y x2 y2 rcol g b a = .error e) ↔ badColorArgs rcol g b)
    ∧ ((∃ e, drawRect x y x2 y2 rcol g b a = .error e) ↔ badColorArgs rcol g b)
    ∧ ((∃ e, drawCircle cosF sinF step x y radius segments rcol g b a = .error e)
        ↔ badColorArgs rcol g b)
    ∧ ((∃ e, drawPrimitive mode positions rcol g b a = .error e)
        ↔ badColorArgs rcol g b) :=
  ⟨drawLine_error_iff x y x2 y2 rcol g b a,
    drawRect_error_iff x y x2 y2 rcol g b a,
    drawCircle_error_iff cosF sinF step x y radius segments rcol g b a,
    drawPrimitive_error_iff mode positions rcol g b a⟩

/-- Witness for C9: a line draw with an undefined color errors, and one with
a full numeric tuple succeeds. -/
theorem primitive_color_error_witness :
    (∃ e, drawLine 0 0 1 1 ColorArg.undef none none none = .error e)
    ∧ ¬ ∃ e, drawLine 0 0 1 1 (ColorArg.num 1) (some 0) (some 0) none = .error e := by
  constructor
  · exact (primitive_color_error 0 0 1 1 0 0 0 PrimMode.lines []
      (fun q => q) (fun q => q) ColorArg.undef none none none).1.mpr
      ⟨fun c h => (nomatch h), Or.inl rfl⟩
  · intro hc
    have hbad := (primitive_color_error 0 0 1 1 0 0 0 PrimMode.lines []
      (fun q => q) (fun q => q) (ColorArg.num 1) (some 0) (some 0) none).1.mp hc
    rcases hbad.2 with h | h <;> exact nomatch h

/-- C10: a shader program whose compiled and linked program lacks any
required attribute or uniform (position attribute, position-matrix uniform,
blend uniform, plus the texture attribute and texture-matrix uniform for
texture-using shaders) fails construction with a `ShaderError`, and a
successful construction implies no required slot was missing — there is no
partially-constructed shader object. -/
theorem shader_missing_slot_error (gl : GLIntrospect) (names : ShaderNames)
    (useTexture : Bool) :
    (requiredSlotMissing gl names useTexture →
      ∃ e, shaderConstruct gl names useTexture = .error e)
    ∧ (∀ r, shaderConstruct gl names useTexture = .ok r →
      ¬ requiredSlotMissing gl names useTexture) := by
  constructor
  · intro hmiss
    unfold shaderConstruct
    repeat' split
    all_goals first
      | exact ⟨_, rfl⟩
      | (exfalso; unfold requiredSlotMissing at hmiss; simp_all)
  · intro r hok hmiss
    unfold shaderConstruct at hok
    unfold requiredSlotMissing at hmiss
    repeat' split at hok
    all_goals simp_all

/-- Witness for C10: with every uniform lookup failing, constructing the
default image shader errors out. -/
theorem shader_missing_slot_error_witness :
    ∃ e, shaderConstruct glMissingUniform defaultImageNames true = .error e :=
  (shader_missing_slot_error glMissingUniform defaultImageNames true).1
    (Or.inr (Or.inl rfl))
